import Mathlib

/- Verification of the ADWBI ETL runner (src/include/etl_runner.py).

The runner is embedded shallowly: the Snowflake session, the master table,
the run-id sequence and the wall clock are modelled as an explicit `World`;
`run_etl_job` becomes a pure function from a world and its arguments to a
`RunResult` holding the returned value (or the raised exception), the final
contents of the audit table, and an ordered trace of the observable database
events (connect, queries, audit writes, SQL submissions, closes). -/

namespace Etl

/-- Python `str.strip()` on a character list: drop whitespace from both ends. -/
def pyStripChars (l : List Char) : List Char :=
  ((l.dropWhile Char.isWhitespace).reverse.dropWhile Char.isWhitespace).reverse

/-- Python `str.strip()` (no arguments): remove leading and trailing whitespace. -/
def pyStrip (s : String) : String := ⟨pyStripChars s.data⟩

/-- Does the list start with the given pattern? -/
def listStartsWith : List Char → List Char → Bool
  | [], _ => true
  | _ :: _, [] => false
  | p :: ps, c :: cs => p == c && listStartsWith ps cs

/-- Python `str.replace` on character lists, fuelled so that it is structural
and kernel-reducible.  At each position, if the (non-empty) pattern matches,
emit the replacement and skip past the match, else keep one character and
move on: left-to-right replacement of every non-overlapping occurrence.
Each call consumes at least one character of the subject, so fuel equal to
the subject's length never runs out. -/
def pyReplaceFuel (p r : List Char) : Nat → List Char → List Char
  | _, [] => []
  | 0, l => l
  | fuel + 1, c :: rest =>
      if p ≠ [] ∧ listStartsWith p (c :: rest) then
        r ++ pyReplaceFuel p r fuel (rest.drop (p.length - 1))
      else
        c :: pyReplaceFuel p r fuel rest

/-- Python `s.replace(pat, rep)` (the runner only uses the non-empty pattern
`$BATCH_TS`, so the empty-pattern corner of Python is irrelevant here). -/
def pyReplace (s pat rep : String) : String :=
  ⟨pyReplaceFuel pat.data rep.data s.data.length s.data⟩

/-- Python truthiness of an optional string: `None` and `""` are falsy. -/
def truthyOpt : Option String → Bool
  | none => false
  | some s => s != ""

/-- Python `a or b` on optional strings: yields `a` when truthy, else `b`. -/
def pyOrOpt (a b : Option String) : Option String :=
  if truthyOpt a then a else b

/-- A timezone-aware UTC `datetime` value as produced by
`datetime.now(timezone.utc)` in the runner. -/
structure PyDateTime where
  year : Nat
  month : Nat
  day : Nat
  hour : Nat
  minute : Nat
  second : Nat
  microsecond : Nat
deriving DecidableEq

/-- Decimal rendering of `n` left-padded with zeros to width `w`. -/
def padNum (w n : Nat) : String :=
  ⟨List.replicate (w - (toString n).length) '0'⟩ ++ toString n

/-- Python `datetime.isoformat(sep)` for a UTC-aware value: the date, the
separator, the time (fractional seconds omitted exactly when
`microsecond = 0`), then the `+00:00` UTC offset. -/
def isoformat (sep : String) (d : PyDateTime) : String :=
  padNum 4 d.year ++ "-" ++ padNum 2 d.month ++ "-" ++ padNum 2 d.day ++ sep ++
  padNum 2 d.hour ++ ":" ++ padNum 2 d.minute ++ ":" ++ padNum 2 d.second ++
  (if d.microsecond = 0 then "" else "." ++ padNum 6 d.microsecond) ++ "+00:00"

/-- Python `dt.replace(microsecond=0)`: truncate to second precision. -/
def replaceMicrosecondZero (d : PyDateTime) : PyDateTime :=
  { d with microsecond := 0 }

/-- One row of the master table, as selected by `_fetch_steps`
(dataclass `StepRow` in the source). -/
structure StepRow where
  project_name : String
  job_code : String
  job_name : String
  step_number : Int
  step_desc : String
  etl_logic : Option String
  src_db : Option String
  src_schema : Option String
  src_table : Option String
  tgt_db : Option String
  tgt_schema : Option String
  tgt_table : Option String
deriving DecidableEq

/-- One row of the audit table.  Timestamps produced by
`CURRENT_TIMESTAMP()` are modelled as ticks of a per-run logical clock. -/
structure AuditRecord where
  run_id : Nat
  project_name : String
  job_code : String
  job_name : String
  step_number : Int
  step_desc : String
  src_db : Option String
  src_schema : Option String
  src_table : Option String
  tgt_db : Option String
  tgt_schema : Option String
  tgt_table : Option String
  run_start_date : Option Nat
  run_end_date : Option Nat
  load_status : String
  error_message : Option String
deriving DecidableEq

/-- The Python exceptions the runner raises itself. -/
inductive PyErr where
  | valueError (msg : String)
  | runtimeError (msg : String)
deriving DecidableEq

/-- Observable database-facing events of one run, in order. -/
inductive Event where
  | connect
  | countQuery (job_code : String)
  | seqNextval
  | fetchQuery (job_code : String)
  | auditInsert (run_id : Nat) (step_number : Int)
  | stepSql (step_number : Int) (sql : String)
  | nativeSubmit (sql : String)
  | fallbackSubmit (stmt : String)
  | auditUpdate (run_id : Nat) (step_number : Int) (status : String)
  | closeCursor
  | closeConn
deriving DecidableEq

/-- Model of the Snowflake session/driver as the runner observes it:
whether `cursor.execute` accepts the `multi_statement_count` keyword (when it
does not, the call raises `TypeError` before anything is submitted), and the
outcome of executing one SQL statement (`none` = success, `some msg` = the
raised error's text).  Statements of one multi-statement block run in order
and stop at the first failure on either submission path. -/
structure Driver where
  supportsMultiStatement : Bool
  stmtExec : String → Option String

/-- Split a character list at semicolons. -/
def splitSemiChars : List Char → List (List Char)
  | [] => [[]]
  | c :: rest =>
      match splitSemiChars rest with
      | [] => [[]]
      | g :: gs => if c = ';' then [] :: g :: gs else (c :: g) :: gs

/-- Statement splitting as performed inside the external Snowflake connector
(`conn.execute_string` and native multi-statement execution): split on
semicolons and drop blank pieces.  The connector is not part of this
repository; the spec describes it as "statement splitting and sequential
execution internally". -/
def splitStatements (s : String) : List String :=
  ((splitSemiChars s.data).map (fun l => pyStrip ⟨l⟩)).filter (fun t => t != "")

/-- Sequential execution of split statements by `conn.execute_string`:
each statement is submitted in turn, stopping at the first failure and
surfacing its error. -/
def runStatements (d : Driver) : List String → List Event × Option String
  | [] => ([], none)
  | st :: rest =>
      match d.stmtExec st with
      | some e => ([Event.fallbackSubmit st], some e)
      | none =>
          let r := runStatements d rest
          (Event.fallbackSubmit st :: r.1, r.2)

/-- The error of the first failing statement of a block, if any: the outcome
of a native multi-statement submission of the whole block. -/
def firstError (d : Driver) : List String → Option String
  | [] => none
  | st :: rest =>
      match d.stmtExec st with
      | some e => some e
      | none => firstError d rest

/-- Embedding of `_execute_sql_block`: strip the text and return without
submitting anything when blank; otherwise try the native multi-statement
cursor execute first — when the driver lacks the capability that call raises
`TypeError` before submitting anything, which is caught and followed by the
`conn.execute_string` fallback.  SQL errors are caught on neither path. -/
def _execute_sql_block (d : Driver) (sql_text : String) : List Event × Option String :=
  let t := pyStrip sql_text
  if t = "" then ([], none)
  else if d.supportsMultiStatement then
    ([Event.nativeSubmit t], firstError d (splitStatements t))
  else
    runStatements d (splitStatements t)

/-- The fields of an Airflow Connection record that
`_get_snowflake_connection` reads (`extra_dejson` keys are spelled out;
a missing key is `none`). -/
structure AirflowConn where
  host : Option String
  login : Option String
  password : Option String
  extra_account : Option String
  extra_warehouse : Option String
  extra_database : Option String
  extra_schema : Option String
  extra_role : Option String

/-- Embedding of `_get_snowflake_connection`: resolve the account locator as
`extra.get("account") or c.host` and raise `ValueError` when the result is
falsy, before `snowflake.connector.connect` is called.  A successful
resolution yields the session (modelled as `Unit`; its identity plays no
further role). -/
def _get_snowflake_connection (c : AirflowConn) (conn_id : String) : Except PyErr Unit :=
  let account := pyOrOpt c.extra_account c.host
  if truthyOpt account then Except.ok ()
  else
    Except.error (PyErr.valueError
      ("Airflow connection \x27" ++ conn_id ++ "\x27 is missing Snowflake \x27account\x27. " ++
       "Set it in Extra as \x7b\"account\":\"...\"\x7d or in the Host field."))

/-- The master-table rows selected by `WHERE JOB_CODE = %s`. -/
def masterRows (master : List StepRow) (job_code : String) : List StepRow :=
  master.filter (fun r => r.job_code == job_code)

/-- Stable insertion into a list ordered by `step_number`. -/
def insertStep (x : StepRow) : List StepRow → List StepRow
  | [] => [x]
  | y :: ys =>
      if decide (x.step_number ≤ y.step_number) then x :: y :: ys
      else y :: insertStep x ys

/-- `ORDER BY STEP_NUMBER` (ascending), via insertion sort. -/
def orderByStepNumber : List StepRow → List StepRow
  | [] => []
  | x :: xs => insertStep x (orderByStepNumber xs)

/-- Embedding of `_fetch_steps`: the master rows of the job code, ordered by
step number. -/
def _fetch_steps (master : List StepRow) (job_code : String) : List StepRow :=
  orderByStepNumber (masterRows master job_code)

/-- Embedding of `_audit_insert_started`: the row inserted for a step —
`RUN_START_DATE = CURRENT_TIMESTAMP()`, `RUN_END_DATE = NULL`,
`LOAD_STATUS = 'STARTED'`, `ERROR_MESSAGE = NULL`. -/
def _audit_insert_started (run_id : Nat) (step : StepRow) (now : Nat) : AuditRecord :=
  { run_id := run_id
    project_name := step.project_name
    job_code := step.job_code
    job_name := step.job_name
    step_number := step.step_number
    step_desc := step.step_desc
    src_db := step.src_db
    src_schema := step.src_schema
    src_table := step.src_table
    tgt_db := step.tgt_db
    tgt_schema := step.tgt_schema
    tgt_table := step.tgt_table
    run_start_date := some now
    run_end_date := none
    load_status := "STARTED"
    error_message := none }

/-- The `WHERE` clause of `_audit_update`: match on run id, job code and
step number. -/
def auditMatches (run_id : Nat) (job_code : String) (step_number : Int)
    (a : AuditRecord) : Bool :=
  a.run_id == run_id && a.job_code == job_code && a.step_number == step_number

/-- Embedding of `_audit_update`: set `RUN_END_DATE = CURRENT_TIMESTAMP()`,
`LOAD_STATUS` and `ERROR_MESSAGE` on every row matching
`(RUN_ID, JOB_CODE, STEP_NUMBER)`. -/
def _audit_update (audit : List AuditRecord) (run_id : Nat) (step : StepRow)
    (status : String) (error_message : Option String) (now : Nat) : List AuditRecord :=
  audit.map (fun a =>
    if auditMatches run_id step.job_code step.step_number a then
      { a with run_end_date := some now, load_status := status,
               error_message := error_message }
    else a)

/-- The per-step SQL phase of the loop body (the inner `try` up to
`_execute_sql_block`): when `step.etl_logic and step.etl_logic.strip()` is
truthy, substitute `$BATCH_TS` by the quoted batch-timestamp literal and
execute the block, recording the substituted text (`last_sql`) as a
`stepSql` event; otherwise do nothing.  Returns the emitted events and the
error of the block execution, if any. -/
def stepSqlEvents (d : Driver) (lit : String) (step : StepRow) : List Event × Option String :=
  match step.etl_logic with
  | none => ([], none)
  | some t =>
      if pyStrip t == "" then ([], none)
      else
        let sql := pyReplace t "$BATCH_TS" ("\x27" ++ lit ++ "\x27")
        let r := _execute_sql_block d sql
        (Event.stepSql step.step_number sql :: r.1, r.2)

/-- The message of the `RuntimeError` raised when a step fails. -/
def jobFailedMsg (job_code : String) (run_id : Nat) (step : StepRow) (err : String) : String :=
  "JOB FAILED | JOB=" ++ job_code ++ " | RUN_ID=" ++ toString run_id ++
  " | STEP=" ++ toString step.step_number ++ " | DESC=" ++ step.step_desc ++
  " | ERROR=" ++ err

/-- Outcome of the step loop: final audit-table contents, logical clock,
emitted events, and the raised exception if a step failed. -/
structure LoopOut where
  audit : List AuditRecord
  clock : Nat
  events : List Event
  error : Option PyErr
deriving DecidableEq

/-- Embedding of the `for step in steps` loop of `run_etl_job`: insert the
STARTED audit row, run the step's SQL (if any), update the row to SUCCESS, or
on failure update it to FAILED with the error text and raise the job-level
`RuntimeError`, aborting the remaining steps. -/
def execSteps (d : Driver) (job_code : String) (run_id : Nat) (lit : String) :
    List StepRow → List AuditRecord → Nat → LoopOut
  | [], audit, clock => ⟨audit, clock, [], none⟩
  | step :: rest, audit, clock =>
      let audit1 := audit ++ [_audit_insert_started run_id step clock]
      let se := stepSqlEvents d lit step
      match se.2 with
      | none =>
          let audit2 := _audit_update audit1 run_id step "SUCCESS" none (clock + 1)
          let out := execSteps d job_code run_id lit rest audit2 (clock + 2)
          ⟨out.audit, out.clock,
           Event.auditInsert run_id step.step_number ::
             (se.1 ++ Event.auditUpdate run_id step.step_number "SUCCESS" :: out.events),
           out.error⟩
      | some e =>
          let audit2 := _audit_update audit1 run_id step "FAILED" (some e) (clock + 1)
          ⟨audit2, clock + 2,
           Event.auditInsert run_id step.step_number ::
             (se.1 ++ [Event.auditUpdate run_id step.step_number "FAILED"]),
           some (PyErr.runtimeError (jobFailedMsg job_code run_id step e))⟩

/-- The external resources one invocation of `run_etl_job` interacts with:
the master-table contents, the value `NEXTVAL` of the run-id sequence yields,
the session/driver behaviour, and the wall-clock instant
`datetime.now(timezone.utc)` returns. -/
structure World where
  master : List StepRow
  seqNext : Nat
  driver : Driver
  nowDT : PyDateTime

/-- What one invocation of `run_etl_job` produced: the returned string or
the raised exception, the final audit-table contents, and the ordered event
trace. -/
structure RunResult where
  result : Except PyErr String
  audit : List AuditRecord
  events : List Event

/-- Embedding of `run_etl_job`: validate `job_code`, strip it, generate the
batch timestamp once, resolve the connection, then inside `try`: count the
job's master rows (raising when zero), draw the run id from the sequence,
fetch the ordered steps and run the loop; the `finally` block closes the
cursor and the connection on every path that acquired them. -/
def run_etl_job (w : World) (conn : AirflowConn) (job_code : String)
    (snowflake_conn_id : String) : RunResult :=
  if job_code == "" || pyStrip job_code == "" then
    { result := Except.error (PyErr.valueError "job_code is required")
      audit := [], events := [] }
  else
    let jc := pyStrip job_code
    let batch_ts := replaceMicrosecondZero w.nowDT
    let batch_ts_literal := isoformat " " batch_ts
    match _get_snowflake_connection conn snowflake_conn_id with
    | Except.error e => { result := Except.error e, audit := [], events := [] }
    | Except.ok _ =>
        let body : Except PyErr String × List AuditRecord × List Event :=
          if (masterRows w.master jc).length == 0 then
            (Except.error (PyErr.runtimeError ("No steps found for JOB_CODE=" ++ jc)),
             [], [Event.countQuery jc])
          else
            let run_id := w.seqNext
            let steps := _fetch_steps w.master jc
            let out := execSteps w.driver jc run_id batch_ts_literal steps [] 0
            let evs := Event.countQuery jc :: Event.seqNextval ::
              Event.fetchQuery jc :: out.events
            match out.error with
            | some e => (Except.error e, out.audit, evs)
            | none =>
                (Except.ok ("SUCCESS: JOB_CODE=" ++ jc ++ ", RUN_ID=" ++ toString run_id ++
                   ", BATCH_TS=" ++ isoformat "T" batch_ts),
                 out.audit, evs)
        { result := body.1
          audit := body.2.1
          events := Event.connect :: (body.2.2 ++ [Event.closeCursor, Event.closeConn]) }

/-- The audit row of a step whose iteration completed successfully: the
STARTED row inserted at tick `c`, updated in place at tick `c + 1`. -/
def successRecord (rid : Nat) (step : StepRow) (c : Nat) : AuditRecord :=
  { _audit_insert_started rid step c with
      run_end_date := some (c + 1), load_status := "SUCCESS", error_message := none }

/-- The audit rows of a run of consecutive successful steps starting at
tick `c` (two ticks per step: insert, then update). -/
def successRecords (rid : Nat) : List StepRow → Nat → List AuditRecord
  | [], _ => []
  | s :: rest, c => successRecord rid s c :: successRecords rid rest (c + 2)

/-- The audit row of the failing step: the STARTED row inserted at tick `c`,
updated in place to FAILED with the error text at tick `c + 1`. -/
def failedRecord (rid : Nat) (step : StepRow) (e : String) (c : Nat) : AuditRecord :=
  { _audit_insert_started rid step c with
      run_end_date := some (c + 1), load_status := "FAILED", error_message := some e }

/-- The events one loop iteration emits: STARTED insert, the step's SQL
events, terminal audit update. -/
def stepEventsOf (d : Driver) (rid : Nat) (lit : String) (step : StepRow)
    (status : String) : List Event :=
  Event.auditInsert rid step.step_number ::
    ((stepSqlEvents d lit step).1 ++ [Event.auditUpdate rid step.step_number status])

/-- The events of a run of consecutive successful steps. -/
def successEvents (d : Driver) (rid : Nat) (lit : String) : List StepRow → List Event
  | [] => []
  | s :: rest => stepEventsOf d rid lit s "SUCCESS" ++ successEvents d rid lit rest

/-- A sample master row for concrete runs. -/
def exStep (n : Int) (logic : Option String) : StepRow :=
  { project_name := "ADWBI", job_code := "JOB_01", job_name := "LOAD",
    step_number := n, step_desc := "D" ++ toString n, etl_logic := logic,
    src_db := none, src_schema := none, src_table := none,
    tgt_db := none, tgt_schema := none, tgt_table := none }

/-- A sample driver: supports native multi-statement execution and fails on
the statement `BAD`. -/
def exDriver : Driver :=
  { supportsMultiStatement := true,
    stmtExec := fun s => if s = "BAD" then some "boom" else none }

/-- A sample wall-clock instant (with a nonzero microsecond part). -/
def exDT : PyDateTime := ⟨2026, 1, 2, 3, 4, 5, 999⟩

/-- A sample connection record with the account in the Host field. -/
def exConn : AirflowConn :=
  { host := some "acct", login := some "user", password := some "pw",
    extra_account := none, extra_warehouse := none, extra_database := none,
    extra_schema := none, extra_role := none }

/-- A sample connection record with no account anywhere (the Extra value is
present but empty, hence falsy). -/
def exConnNoAcct : AirflowConn :=
  { host := some "", login := some "user", password := some "pw",
    extra_account := none, extra_warehouse := none, extra_database := none,
    extra_schema := none, extra_role := none }

/-- A sample world whose two steps both succeed. -/
def exWorld : World :=
  { master := [exStep 2 none,
      exStep 1 (some "INSERT INTO T SELECT * FROM S WHERE ts = $BATCH_TS")],
    seqNext := 7, driver := exDriver, nowDT := exDT }

/-- A sample world whose second of three steps fails. -/
def exWorldFail : World :=
  { master := [exStep 1 (some "OK1"), exStep 2 (some "BAD"), exStep 3 (some "OK3")],
    seqNext := 9, driver := exDriver, nowDT := exDT }

theorem pyStrip_empty : pyStrip "" = "" := rfl

/-- A non-blank (after stripping) job code passes the entry validation. -/
theorem validation_passes (job_code : String) (h : pyStrip job_code ≠ "") :
    (job_code == "" || pyStrip job_code == "") = false := by
  have hjc : job_code ≠ "" := by
    intro he
    exact h (by simp [he, pyStrip_empty])
  simp [hjc, h]

/-- When the account locator resolves, `_get_snowflake_connection` returns
the session. -/
theorem conn_resolves (c : AirflowConn) (conn_id : String)
    (h : truthyOpt (pyOrOpt c.extra_account c.host) = true) :
    _get_snowflake_connection c conn_id = Except.ok () := by
  simp [_get_snowflake_connection, h]

/-- When the account locator is missing from both Extra and Host,
`_get_snowflake_connection` raises the configuration `ValueError`. -/
theorem conn_missing_account (c : AirflowConn) (conn_id : String)
    (h1 : truthyOpt c.extra_account = false) (h2 : truthyOpt c.host = false) :
    _get_snowflake_connection c conn_id = Except.error (PyErr.valueError
      ("Airflow connection \x27" ++ conn_id ++ "\x27 is missing Snowflake \x27account\x27. " ++
       "Set it in Extra as \x7b\"account\":\"...\"\x7d or in the Host field.")) := by
  simp [_get_snowflake_connection, pyOrOpt, h1, h2]

/-- The freshly inserted STARTED row matches its own update key. -/
theorem auditMatches_insert_started (rid : Nat) (step : StepRow) (c : Nat) :
    auditMatches rid step.job_code step.step_number (_audit_insert_started rid step c) = true := by
  simp [auditMatches, _audit_insert_started]

/-- A matching row has this run's id. -/
theorem auditMatches_run_id (rid : Nat) (jc : String) (n : Int) (a : AuditRecord)
    (h : auditMatches rid jc n a = true) : a.run_id = rid := by
  simp only [auditMatches, Bool.and_eq_true, beq_iff_eq] at h
  exact h.1.1

/-- `_audit_update` over rows of which only the last matches rewrites only
that last row. -/
theorem audit_update_append_matching (A : List AuditRecord) (r : AuditRecord)
    (rid : Nat) (step : StepRow) (st : String) (em : Option String) (c : Nat)
    (hA : ∀ a ∈ A, auditMatches rid step.job_code step.step_number a = false)
    (hr : auditMatches rid step.job_code step.step_number r = true) :
    _audit_update (A ++ [r]) rid step st em c =
      A ++ [{ r with run_end_date := some c, load_status := st, error_message := em }] := by
  unfold _audit_update
  rw [List.map_append]
  congr 1
  · have hcongr : ∀ a ∈ A,
        (if auditMatches rid step.job_code step.step_number a then
          { a with run_end_date := some c, load_status := st, error_message := em }
        else a) = id a := by
      intro a ha
      simp [hA a ha]
    rw [List.map_congr_left hcongr, List.map_id]
  · simp [hr]

/-- `_audit_update` never changes a row's identity fields. -/
theorem audit_update_map_step_number (A : List AuditRecord) (rid : Nat) (step : StepRow)
    (st : String) (em : Option String) (c : Nat) :
    (_audit_update A rid step st em c).map (fun a => a.step_number) =
      A.map (fun a => a.step_number) := by
  unfold _audit_update
  rw [List.map_map]
  apply List.map_congr_left
  intro a _
  by_cases h : auditMatches rid step.job_code step.step_number a = true
  · simp [h]
  · simp [Bool.eq_false_iff.mpr h]

/-- A SUCCESS update leaves every row SUCCESS-with-null-error, provided every
row either already was or is matched by the update. -/
theorem audit_update_success_mem (A : List AuditRecord) (rid : Nat) (step : StepRow) (c : Nat)
    (hA : ∀ a ∈ A, (a.load_status = "SUCCESS" ∧ a.error_message = none ∧ a.run_id = rid) ∨
        auditMatches rid step.job_code step.step_number a = true) :
    ∀ b ∈ _audit_update A rid step "SUCCESS" none c,
      b.load_status = "SUCCESS" ∧ b.error_message = none ∧ b.run_id = rid := by
  intro b hb
  simp only [_audit_update, List.mem_map] at hb
  obtain ⟨a, ha, rfl⟩ := hb
  by_cases hm : auditMatches rid step.job_code step.step_number a = true
  · have hrid := auditMatches_run_id _ _ _ _ hm
    simp [hm, hrid]
  · simp only [Bool.eq_false_iff.mpr hm, Bool.false_eq_true, if_false]
    rcases hA a ha with h | h
    · exact h
    · exact absurd h hm

/-- When every step of the remaining list succeeds, the loop raises nothing,
appends exactly one row per step (in step order), and leaves every row
SUCCESS with a null error and this run's id. -/
theorem execSteps_all_success (d : Driver) (jc : String) (rid : Nat) (lit : String)
    (l : List StepRow) (audit : List AuditRecord) (c : Nat)
    (hl : ∀ s ∈ l, (stepSqlEvents d lit s).2 = none)
    (hA : ∀ a ∈ audit, a.load_status = "SUCCESS" ∧ a.error_message = none ∧ a.run_id = rid) :
    (execSteps d jc rid lit l audit c).error = none ∧
    (execSteps d jc rid lit l audit c).audit.map (fun a => a.step_number) =
      audit.map (fun a => a.step_number) ++ l.map (fun s => s.step_number) ∧
    ∀ a ∈ (execSteps d jc rid lit l audit c).audit,
      a.load_status = "SUCCESS" ∧ a.error_message = none ∧ a.run_id = rid := by
  induction l generalizing audit c with
  | nil => simpa [execSteps] using hA
  | cons s rest ih =>
      have hs : (stepSqlEvents d lit s).2 = none := hl s (List.mem_cons_self s rest)
      have hmem : ∀ a ∈ audit ++ [_audit_insert_started rid s c],
          (a.load_status = "SUCCESS" ∧ a.error_message = none ∧ a.run_id = rid) ∨
          auditMatches rid s.job_code s.step_number a = true := by
        intro a ha
        rcases List.mem_append.mp ha with h | h
        · exact Or.inl (hA a h)
        · simp only [List.mem_singleton] at h
          subst h
          exact Or.inr (auditMatches_insert_started rid s c)
      have hupd := audit_update_success_mem _ rid s (c + 1) hmem
      have hmap : (_audit_update (audit ++ [_audit_insert_started rid s c]) rid s
            "SUCCESS" none (c + 1)).map (fun a => a.step_number) =
          audit.map (fun a => a.step_number) ++ [s.step_number] := by
        rw [audit_update_map_step_number, List.map_append]
        rfl
      have hrec := ih _ (c + 2) (fun t ht => hl t (List.mem_cons_of_mem s ht)) hupd
      simp only [execSteps, hs]
      refine ⟨hrec.1, ?_, hrec.2.2⟩
      rw [hrec.2.1, hmap]
      simp

/-- A successful step's row does not match the update key of a step with a
different (job code, step number) key. -/
theorem auditMatches_successRecord (rid : Nat) (t s : StepRow) (c : Nat)
    (h : ¬(s.job_code = t.job_code ∧ s.step_number = t.step_number)) :
    auditMatches rid t.job_code t.step_number (successRecord rid s c) = false := by
  by_cases h1 : s.job_code = t.job_code
  · by_cases h2 : s.step_number = t.step_number
    · exact absurd ⟨h1, h2⟩ h
    · simp [auditMatches, successRecord, _audit_insert_started, h2]
  · simp [auditMatches, successRecord, _audit_insert_started, h1]

/-- Either every step's SQL phase succeeds, or the list splits at a first
failing step. -/
theorem loop_split_cases (d : Driver) (lit : String) : ∀ l : List StepRow,
    (∀ s ∈ l, (stepSqlEvents d lit s).2 = none) ∨
    ∃ pre sk e post, l = pre ++ sk :: post ∧
      (∀ s ∈ pre, (stepSqlEvents d lit s).2 = none) ∧
      (stepSqlEvents d lit sk).2 = some e := by
  intro l
  induction l with
  | nil => exact Or.inl (by simp)
  | cons s rest ih =>
      cases hse : (stepSqlEvents d lit s).2 with
      | some e => exact Or.inr ⟨[], s, e, rest, by simp, by simp, hse⟩
      | none =>
          rcases ih with h | ⟨pre, sk, e, post, hsplit, hpre, hsk⟩
          · refine Or.inl ?_
            intro t ht
            rcases List.mem_cons.mp ht with rfl | ht
            · exact hse
            · exact h t ht
          · refine Or.inr ⟨s :: pre, sk, e, post, by simp [hsplit], ?_, hsk⟩
            intro t ht
            rcases List.mem_cons.mp ht with rfl | ht
            · exact hse
            · exact hpre t ht

/-- Exact description of the loop when every step succeeds and the step keys
are pairwise distinct: one SUCCESS row per step, two clock ticks per step,
the per-step event blocks in order, and no exception. -/
theorem execSteps_success_exact (d : Driver) (jc : String) (rid : Nat) (lit : String)
    (l : List StepRow) (audit : List AuditRecord) (c : Nat)
    (hl : ∀ s ∈ l, (stepSqlEvents d lit s).2 = none)
    (hdisj : ∀ a ∈ audit, ∀ s ∈ l, auditMatches rid s.job_code s.step_number a = false)
    (hkeys : l.Pairwise (fun s t => ¬(s.job_code = t.job_code ∧ s.step_number = t.step_number))) :
    execSteps d jc rid lit l audit c =
      ⟨audit ++ successRecords rid l c, c + 2 * l.length,
       successEvents d rid lit l, none⟩ := by
  induction l generalizing audit c with
  | nil => simp [execSteps, successRecords, successEvents]
  | cons s rest ih =>
      have hse : (stepSqlEvents d lit s).2 = none := hl s (List.mem_cons_self s rest)
      have hupd : _audit_update (audit ++ [_audit_insert_started rid s c]) rid s
          "SUCCESS" none (c + 1) = audit ++ [successRecord rid s c] := by
        rw [audit_update_append_matching _ _ rid s _ _ _
          (fun a ha => hdisj a ha s (List.mem_cons_self s rest))
          (auditMatches_insert_started rid s c)]
        rfl
      have hdisj2 : ∀ a ∈ audit ++ [successRecord rid s c], ∀ t ∈ rest,
          auditMatches rid t.job_code t.step_number a = false := by
        intro a ha t ht
        rcases List.mem_append.mp ha with h | h
        · exact hdisj a h t (List.mem_cons_of_mem s ht)
        · simp only [List.mem_singleton] at h
          subst h
          exact auditMatches_successRecord rid t s c ((List.pairwise_cons.mp hkeys).1 t ht)
      have ihh := ih _ (c + 2) (fun t ht => hl t (List.mem_cons_of_mem s ht)) hdisj2
        (List.pairwise_cons.mp hkeys).2
      simp only [execSteps, hse, hupd, ihh]
      simp [successRecords, successEvents, stepEventsOf, List.append_assoc]
      omega

/-- Exact description of the loop when step `sk` fails after a successful
prefix `pre`: SUCCESS rows for `pre`, one FAILED row carrying the error text
for `sk`, nothing for the suffix, and the job-level `RuntimeError`. -/
theorem execSteps_fail_exact (d : Driver) (jc : String) (rid : Nat) (lit : String)
    (pre : List StepRow) (sk : StepRow) (e : String) (post : List StepRow)
    (audit : List AuditRecord) (c : Nat)
    (hpre : ∀ s ∈ pre, (stepSqlEvents d lit s).2 = none)
    (hsk : (stepSqlEvents d lit sk).2 = some e)
    (hdisj : ∀ a ∈ audit, ∀ s ∈ pre ++ sk :: post,
      auditMatches rid s.job_code s.step_number a = false)
    (hkeys : (pre ++ sk :: post).Pairwise
      (fun s t => ¬(s.job_code = t.job_code ∧ s.step_number = t.step_number))) :
    execSteps d jc rid lit (pre ++ sk :: post) audit c =
      ⟨audit ++ (successRecords rid pre c ++ [failedRecord rid sk e (c + 2 * pre.length)]),
       c + 2 * pre.length + 2,
       successEvents d rid lit pre ++ stepEventsOf d rid lit sk "FAILED",
       some (PyErr.runtimeError (jobFailedMsg jc rid sk e))⟩ := by
  induction pre generalizing audit c with
  | nil =>
      have hupd : _audit_update (audit ++ [_audit_insert_started rid sk c]) rid sk
          "FAILED" (some e) (c + 1) = audit ++ [failedRecord rid sk e c] := by
        rw [audit_update_append_matching _ _ rid sk _ _ _
          (fun a ha => hdisj a ha sk (by simp))
          (auditMatches_insert_started rid sk c)]
        rfl
      simp only [List.nil_append, execSteps, hsk, hupd]
      simp [successRecords, successEvents, stepEventsOf]
  | cons p pre' ih =>
      have hse : (stepSqlEvents d lit p).2 = none := hpre p (List.mem_cons_self p pre')
      have hupd : _audit_update (audit ++ [_audit_insert_started rid p c]) rid p
          "SUCCESS" none (c + 1) = audit ++ [successRecord rid p c] := by
        rw [audit_update_append_matching _ _ rid p _ _ _
          (fun a ha => hdisj a ha p (by simp))
          (auditMatches_insert_started rid p c)]
        rfl
      have hkeys' := List.pairwise_cons.mp (show List.Pairwise _ (p :: (pre' ++ sk :: post)) from hkeys)
      have hdisj2 : ∀ a ∈ audit ++ [successRecord rid p c], ∀ t ∈ pre' ++ sk :: post,
          auditMatches rid t.job_code t.step_number a = false := by
        intro a ha t ht
        rcases List.mem_append.mp ha with h | h
        · exact hdisj a h t (by simpa using Or.inr ht)
        · simp only [List.mem_singleton] at h
          subst h
          exact auditMatches_successRecord rid t p c (hkeys'.1 t ht)
      have ihh := ih _ (c + 2) (fun t ht => hpre t (List.mem_cons_of_mem p ht)) hdisj2 hkeys'.2
      have harith : c + 2 + 2 * pre'.length = c + 2 * (pre'.length + 1) := by omega
      rw [harith] at ihh
      simp only [List.cons_append, execSteps, hse, hupd, List.append_eq]
      rw [ihh]
      simp [successRecords, successEvents, stepEventsOf, List.append_assoc]

/-- The fallback path's result is the first failing statement's error. -/
theorem runStatements_snd (d : Driver) (L : List String) :
    (runStatements d L).2 = firstError d L := by
  induction L with
  | nil => rfl
  | cons st rest ih => cases h : d.stmtExec st <;> simp [runStatements, firstError, h, ih]

/-- The fallback path emits only statement submissions. -/
theorem runStatements_events (d : Driver) (L : List String) :
    ∀ ev ∈ (runStatements d L).1, ∃ u, ev = Event.fallbackSubmit u := by
  induction L with
  | nil => simp [runStatements]
  | cons st rest ih =>
      cases h : d.stmtExec st with
      | some e => simp [runStatements, h]
      | none =>
          intro ev hev
          simp only [runStatements, h] at hev
          rcases List.mem_cons.mp hev with rfl | hev
          · exact ⟨st, rfl⟩
          · exact ih ev hev

/-- When an earlier-successful prefix is followed by a failing statement, the
block's outcome is exactly that statement's error. -/
theorem firstError_of_first_fail (d : Driver) (pre : List String) (st : String)
    (post : List String) (e : String)
    (hpre : ∀ u ∈ pre, d.stmtExec u = none) (hst : d.stmtExec st = some e) :
    firstError d (pre ++ st :: post) = some e := by
  induction pre with
  | nil => simp [firstError, hst]
  | cons u rest ih =>
      have hu : d.stmtExec u = none := hpre u (List.mem_cons_self u rest)
      simp only [List.cons_append, firstError, hu]
      exact ih (fun v hv => hpre v (List.mem_cons_of_mem u hv))

/-- The block executor emits only SQL submissions. -/
theorem execute_sql_block_shape (d : Driver) (x : String) :
    ∀ ev ∈ (_execute_sql_block d x).1,
      (∃ q, ev = Event.nativeSubmit q) ∨ (∃ q, ev = Event.fallbackSubmit q) := by
  intro ev hev
  unfold _execute_sql_block at hev
  by_cases hb : pyStrip x = ""
  · simp [hb] at hev
  · simp only [hb, if_false] at hev
    by_cases hm : d.supportsMultiStatement = true
    · simp only [hm, if_true] at hev
      simp only [List.mem_singleton] at hev
      exact Or.inl ⟨pyStrip x, hev⟩
    · simp only [Bool.eq_false_iff.mpr hm, Bool.false_eq_true, if_false] at hev
      exact Or.inr (runStatements_events d _ ev hev)

/-- The SQL phase of one step emits only the substituted-SQL record and SQL
submissions. -/
theorem stepSqlEvents_shape (d : Driver) (lit : String) (s : StepRow) :
    ∀ ev ∈ (stepSqlEvents d lit s).1,
      (∃ n q, ev = Event.stepSql n q) ∨ (∃ q, ev = Event.nativeSubmit q) ∨
      (∃ q, ev = Event.fallbackSubmit q) := by
  intro ev hev
  unfold stepSqlEvents at hev
  cases hl : s.etl_logic with
  | none => simp [hl] at hev
  | some t =>
      simp only [hl] at hev
      by_cases hb : (pyStrip t == "") = true
      · simp [hb] at hev
      · simp only [Bool.eq_false_iff.mpr hb, Bool.false_eq_true, if_false] at hev
        rcases List.mem_cons.mp hev with rfl | hev
        · exact Or.inl ⟨_, _, rfl⟩
        · rcases execute_sql_block_shape d _ ev hev with h | h
          · exact Or.inr (Or.inl h)
          · exact Or.inr (Or.inr h)

/-- The loop emits only audit writes, substituted-SQL records and SQL
submissions. -/
theorem execSteps_events_shape (d : Driver) (jc : String) (rid : Nat) (lit : String)
    (l : List StepRow) (audit : List AuditRecord) (c : Nat) :
    ∀ ev ∈ (execSteps d jc rid lit l audit c).events,
      (∃ r n, ev = Event.auditInsert r n) ∨ (∃ n q, ev = Event.stepSql n q) ∨
      (∃ q, ev = Event.nativeSubmit q) ∨ (∃ q, ev = Event.fallbackSubmit q) ∨
      (∃ r n st, ev = Event.auditUpdate r n st) := by
  induction l generalizing audit c with
  | nil => simp [execSteps]
  | cons s rest ih =>
      intro ev hev
      cases hse : (stepSqlEvents d lit s).2 with
      | none =>
          simp only [execSteps, hse] at hev
          rcases List.mem_cons.mp hev with rfl | hev
          · exact Or.inl ⟨rid, s.step_number, rfl⟩
          · rcases List.mem_append.mp hev with hev | hev
            · rcases stepSqlEvents_shape d lit s ev hev with h | h | h
              · exact Or.inr (Or.inl h)
              · exact Or.inr (Or.inr (Or.inl h))
              · exact Or.inr (Or.inr (Or.inr (Or.inl h)))
            · rcases List.mem_cons.mp hev with rfl | hev
              · exact Or.inr (Or.inr (Or.inr (Or.inr ⟨rid, s.step_number, "SUCCESS", rfl⟩)))
              · exact ih _ (c + 2) ev hev
      | some e =>
          simp only [execSteps, hse] at hev
          rcases List.mem_cons.mp hev with rfl | hev
          · exact Or.inl ⟨rid, s.step_number, rfl⟩
          · rcases List.mem_append.mp hev with hev | hev
            · rcases stepSqlEvents_shape d lit s ev hev with h | h | h
              · exact Or.inr (Or.inl h)
              · exact Or.inr (Or.inr (Or.inl h))
              · exact Or.inr (Or.inr (Or.inr (Or.inl h)))
            · simp only [List.mem_singleton] at hev
              subst hev
              exact Or.inr (Or.inr (Or.inr (Or.inr ⟨rid, s.step_number, "FAILED", rfl⟩)))

/-- C7: given empty or whitespace-only `sql_text`, the SQL Block Executor
submits no statement to the session and returns normally (no events, no
error). -/
theorem C7_blank_sql_noop (d : Driver) (sql_text : String)
    (h : pyStrip sql_text = "") :
    _execute_sql_block d sql_text = ([], none) := by
  simp [_execute_sql_block, h]

/-- C8: the SQL Block Executor attempts a single native multi-statement
submission first; it falls back to the session-level execute-string path
exactly when the driver lacks the capability (not when the SQL fails); and on
either path the first failing statement's error propagates to the caller. -/
theorem C8_native_then_fallback (d : Driver) (sql_text : String)
    (h : pyStrip sql_text ≠ "") :
    (d.supportsMultiStatement = true →
      (_execute_sql_block d sql_text).1 = [Event.nativeSubmit (pyStrip sql_text)] ∧
      (∀ u, Event.fallbackSubmit u ∉ (_execute_sql_block d sql_text).1) ∧
      (_execute_sql_block d sql_text).2 =
        firstError d (splitStatements (pyStrip sql_text))) ∧
    (d.supportsMultiStatement = false →
      _execute_sql_block d sql_text =
        runStatements d (splitStatements (pyStrip sql_text)) ∧
      (∀ q, Event.nativeSubmit q ∉ (_execute_sql_block d sql_text).1)) ∧
    (∀ pre st post e, splitStatements (pyStrip sql_text) = pre ++ st :: post →
      (∀ u ∈ pre, d.stmtExec u = none) → d.stmtExec st = some e →
      (_execute_sql_block d sql_text).2 = some e) := by
  refine ⟨?_, ?_, ?_⟩
  · intro hm
    simp [_execute_sql_block, h, hm]
  · intro hm
    constructor
    · simp [_execute_sql_block, h, hm]
    · intro q hq
      rcases execute_sql_block_shape d sql_text _ hq with ⟨q', hq'⟩ | ⟨u, hu⟩
      · have := runStatements_events d (splitStatements (pyStrip sql_text)) (Event.nativeSubmit q)
        apply absurd hq
        simp only [_execute_sql_block, h, if_false, hm, Bool.false_eq_true]
        intro hmem
        obtain ⟨u, hu⟩ := this hmem
        exact Event.noConfusion hu
      · exact Event.noConfusion hu
  · intro pre st post e hsplit hpre hst
    have hfe : firstError d (splitStatements (pyStrip sql_text)) = some e := by
      rw [hsplit]
      exact firstError_of_first_fail d pre st post e hpre hst
    cases hm : d.supportsMultiStatement with
    | true => simpa [_execute_sql_block, h, hm] using hfe
    | false =>
        have := runStatements_snd d (splitStatements (pyStrip sql_text))
        simp only [_execute_sql_block, h, if_false, hm, Bool.false_eq_true]
        rw [this, hfe]

/-- When the resolved account locator is falsy, `_get_snowflake_connection`
raises the configuration `ValueError`. -/
theorem conn_fails (c : AirflowConn) (conn_id : String)
    (h : truthyOpt (pyOrOpt c.extra_account c.host) = false) :
    _get_snowflake_connection c conn_id = Except.error (PyErr.valueError
      ("Airflow connection \x27" ++ conn_id ++ "\x27 is missing Snowflake \x27account\x27. " ++
       "Set it in Extra as \x7b\"account\":\"...\"\x7d or in the Host field.")) := by
  simp [_get_snowflake_connection, h]

/-- The run on an empty or blank job code. -/
theorem run_empty_job_eq (w : World) (conn : AirflowConn) (job_code cid : String)
    (h : pyStrip job_code = "") :
    run_etl_job w conn job_code cid =
      { result := Except.error (PyErr.valueError "job_code is required"),
        audit := [], events := [] } := by
  simp [run_etl_job, h]

/-- The run when the account locator is missing. -/
theorem run_config_error_eq (w : World) (conn : AirflowConn) (job_code cid : String)
    (h1 : pyStrip job_code ≠ "")
    (h2 : truthyOpt (pyOrOpt conn.extra_account conn.host) = false) :
    run_etl_job w conn job_code cid =
      { result := Except.error (PyErr.valueError
          ("Airflow connection \x27" ++ cid ++ "\x27 is missing Snowflake \x27account\x27. " ++
           "Set it in Extra as \x7b\"account\":\"...\"\x7d or in the Host field.")),
        audit := [], events := [] } := by
  simp [run_etl_job, validation_passes _ h1, conn_fails conn cid h2]

/-- The run when the job code matches no master row. -/
theorem run_unknown_job_eq (w : World) (conn : AirflowConn) (job_code cid : String)
    (h1 : pyStrip job_code ≠ "")
    (h2 : truthyOpt (pyOrOpt conn.extra_account conn.host) = true)
    (h3 : masterRows w.master (pyStrip job_code) = []) :
    run_etl_job w conn job_code cid =
      { result := Except.error (PyErr.runtimeError
          ("No steps found for JOB_CODE=" ++ pyStrip job_code)),
        audit := [],
        events := [Event.connect, Event.countQuery (pyStrip job_code),
          Event.closeCursor, Event.closeConn] } := by
  simp [run_etl_job, validation_passes _ h1, conn_resolves _ _ h2, h3]

/-- The run when master rows exist: it connects, counts, draws the run id,
fetches, runs the loop and closes; result and audit come from the loop. -/
theorem run_with_steps_eq (w : World) (conn : AirflowConn) (job_code cid : String)
    (h1 : pyStrip job_code ≠ "")
    (h2 : truthyOpt (pyOrOpt conn.extra_account conn.host) = true)
    (h3 : masterRows w.master (pyStrip job_code) ≠ []) :
    run_etl_job w conn job_code cid =
      { result :=
          match (execSteps w.driver (pyStrip job_code) w.seqNext
              (isoformat " " (replaceMicrosecondZero w.nowDT))
              (_fetch_steps w.master (pyStrip job_code)) [] 0).error with
          | some e => Except.error e
          | none => Except.ok ("SUCCESS: JOB_CODE=" ++ pyStrip job_code ++
              ", RUN_ID=" ++ toString w.seqNext ++
              ", BATCH_TS=" ++ isoformat "T" (replaceMicrosecondZero w.nowDT)),
        audit := (execSteps w.driver (pyStrip job_code) w.seqNext
            (isoformat " " (replaceMicrosecondZero w.nowDT))
            (_fetch_steps w.master (pyStrip job_code)) [] 0).audit,
        events := Event.connect ::
          ((Event.countQuery (pyStrip job_code) :: Event.seqNextval ::
            Event.fetchQuery (pyStrip job_code) ::
            (execSteps w.driver (pyStrip job_code) w.seqNext
              (isoformat " " (replaceMicrosecondZero w.nowDT))
              (_fetch_steps w.master (pyStrip job_code)) [] 0).events) ++
           [Event.closeCursor, Event.closeConn]) } := by
  have hlen : (((masterRows w.master (pyStrip job_code)).length == 0) = false) := by
    simp only [beq_eq_false_iff_ne, ne_eq, List.length_eq_zero]
    exact h3
  cases ho : (execSteps w.driver (pyStrip job_code) w.seqNext
      (isoformat " " (replaceMicrosecondZero w.nowDT))
      (_fetch_steps w.master (pyStrip job_code)) [] 0).error with
  | none =>
      simp only [run_etl_job, validation_passes _ h1, Bool.false_eq_true, if_false,
        conn_resolves _ _ h2, hlen, ho]
  | some e =>
      simp only [run_etl_job, validation_passes _ h1, Bool.false_eq_true, if_false,
        conn_resolves _ _ h2, hlen, ho]

/-- C9: when the connection record lacks an account locator in both the
Extra JSON and the Host field, `run_etl_job` raises the configuration
`ValueError` with no session created and no database work: the trace and the
audit table stay empty. -/
theorem C9_missing_account (w : World) (conn : AirflowConn) (job_code cid : String)
    (h1 : pyStrip job_code ≠ "")
    (h2 : truthyOpt conn.extra_account = false) (h3 : truthyOpt conn.host = false) :
    run_etl_job w conn job_code cid =
      { result := Except.error (PyErr.valueError
          ("Airflow connection \x27" ++ cid ++ "\x27 is missing Snowflake \x27account\x27. " ++
           "Set it in Extra as \x7b\"account\":\"...\"\x7d or in the Host field.")),
        audit := [], events := [] } :=
  run_config_error_eq w conn job_code cid h1 (by simp [pyOrOpt, h2, h3])

/-- C2: when the count query over the master table returns zero rows,
`run_etl_job` raises the unknown-job `RuntimeError`; the run-id sequence is
never queried and no audit record is written. -/
theorem C2_unknown_job (w : World) (conn : AirflowConn) (job_code cid : String)
    (h1 : pyStrip job_code ≠ "")
    (h2 : truthyOpt (pyOrOpt conn.extra_account conn.host) = true)
    (h3 : masterRows w.master (pyStrip job_code) = []) :
    run_etl_job w conn job_code cid =
      { result := Except.error (PyErr.runtimeError
          ("No steps found for JOB_CODE=" ++ pyStrip job_code)),
        audit := [],
        events := [Event.connect, Event.countQuery (pyStrip job_code),
          Event.closeCursor, Event.closeConn] } ∧
    Event.seqNextval ∉ (run_etl_job w conn job_code cid).events ∧
    (∀ r n, Event.auditInsert r n ∉ (run_etl_job w conn job_code cid).events) := by
  have heq := run_unknown_job_eq w conn job_code cid h1 h2 h3
  refine ⟨heq, ?_, ?_⟩
  · simp [heq]
  · intro r n
    simp [heq]

/-- C6: every invocation that acquires the connection and cursor closes both
at the very end of the run, on the success path and on every failure path. -/
theorem C6_resources_closed (w : World) (conn : AirflowConn) (job_code cid : String)
    (h1 : pyStrip job_code ≠ "")
    (h2 : truthyOpt (pyOrOpt conn.extra_account conn.host) = true) :
    ∃ l, (run_etl_job w conn job_code cid).events =
      Event.connect :: (l ++ [Event.closeCursor, Event.closeConn]) := by
  by_cases h3 : masterRows w.master (pyStrip job_code) = []
  · exact ⟨[Event.countQuery (pyStrip job_code)],
      by simp [run_unknown_job_eq w conn job_code cid h1 h2 h3]⟩
  · exact ⟨Event.countQuery (pyStrip job_code) :: Event.seqNextval ::
      Event.fetchQuery (pyStrip job_code) ::
      (execSteps w.driver (pyStrip job_code) w.seqNext
        (isoformat " " (replaceMicrosecondZero w.nowDT))
        (_fetch_steps w.master (pyStrip job_code)) [] 0).events,
      by simp [run_with_steps_eq w conn job_code cid h1 h2 h3]⟩

/-- C10: an empty or whitespace-only `job_code` raises `ValueError` before
any connection is opened or database work occurs; otherwise every master
query of the run uses the whitespace-stripped job code. -/
theorem C10_job_code_validation (w : World) (conn : AirflowConn) (job_code cid : String) :
    (pyStrip job_code = "" →
      run_etl_job w conn job_code cid =
        { result := Except.error (PyErr.valueError "job_code is required"),
          audit := [], events := [] }) ∧
    (∀ q, Event.countQuery q ∈ (run_etl_job w conn job_code cid).events →
      q = pyStrip job_code) ∧
    (∀ q, Event.fetchQuery q ∈ (run_etl_job w conn job_code cid).events →
      q = pyStrip job_code) := by
  refine ⟨run_empty_job_eq w conn job_code cid, ?_, ?_⟩
  all_goals
    intro q hq
    by_cases h1 : pyStrip job_code = ""
    · rw [run_empty_job_eq w conn job_code cid h1] at hq
      simp at hq
    · by_cases h2 : truthyOpt (pyOrOpt conn.extra_account conn.host) = true
      · by_cases h3 : masterRows w.master (pyStrip job_code) = []
        · rw [run_unknown_job_eq w conn job_code cid h1 h2 h3] at hq
          simp only [List.mem_cons, List.not_mem_nil, or_false] at hq
          first
            | (rcases hq with hq | hq | hq
               · exact Event.noConfusion hq
               · exact (Event.countQuery.injEq _ _).mp hq.symm ▸ rfl
               · rcases hq with hq | hq <;> exact Event.noConfusion hq)
            | (rcases hq with hq | hq | hq
               · exact Event.noConfusion hq
               · exact Event.noConfusion hq
               · rcases hq with hq | hq <;> exact Event.noConfusion hq)
        · rw [run_with_steps_eq w conn job_code cid h1 h2 h3] at hq
          simp only [RunResult.mk.injEq, List.mem_cons, List.mem_append,
            List.not_mem_nil, or_false] at hq
          first
            | (rcases hq with hq | (hq | hq | hq | hq) | hq | hq
               · exact Event.noConfusion hq
               · exact (Event.countQuery.injEq _ _).mp hq
               · exact Event.noConfusion hq
               · exact Event.noConfusion hq
               · rcases execSteps_events_shape _ _ _ _ _ _ _ _ hq with
                   ⟨_, _, h⟩ | ⟨_, _, h⟩ | ⟨_, h⟩ | ⟨_, h⟩ | ⟨_, _, _, h⟩ <;>
                   exact Event.noConfusion h
               · exact Event.noConfusion hq
               · exact Event.noConfusion hq)
            | (rcases hq with hq | (hq | hq | hq | hq) | hq | hq
               · exact Event.noConfusion hq
               · exact Event.noConfusion hq
               · exact Event.noConfusion hq
               · exact (Event.fetchQuery.injEq _ _).mp hq
               · rcases execSteps_events_shape _ _ _ _ _ _ _ _ hq with
                   ⟨_, _, h⟩ | ⟨_, _, h⟩ | ⟨_, h⟩ | ⟨_, h⟩ | ⟨_, _, _, h⟩ <;>
                   exact Event.noConfusion h
               · exact Event.noConfusion hq
               · exact Event.noConfusion hq)
      · rw [run_config_error_eq w conn job_code cid h1 (Bool.eq_false_iff.mpr h2)] at hq
        simp at hq

/-- C1: for a job code with at least one master row all of whose steps
execute successfully, the run writes exactly one audit record per step (in
step order), every record ends SUCCESS with a null error message and carries
the run id drawn from the sequence, and the returned string reports the job
code, that same run id and the batch timestamp. -/
theorem C1_success_run (w : World) (conn : AirflowConn) (job_code cid : String)
    (h1 : pyStrip job_code ≠ "")
    (h2 : truthyOpt (pyOrOpt conn.extra_account conn.host) = true)
    (h3 : masterRows w.master (pyStrip job_code) ≠ [])
    (h4 : ∀ s ∈ _fetch_steps w.master (pyStrip job_code),
      (stepSqlEvents w.driver (isoformat " " (replaceMicrosecondZero w.nowDT)) s).2 = none) :
    (run_etl_job w conn job_code cid).audit.map (fun a => a.step_number) =
      (_fetch_steps w.master (pyStrip job_code)).map (fun s => s.step_number) ∧
    (∀ a ∈ (run_etl_job w conn job_code cid).audit,
      a.load_status = "SUCCESS" ∧ a.error_message = none ∧ a.run_id = w.seqNext) ∧
    (run_etl_job w conn job_code cid).result =
      Except.ok ("SUCCESS: JOB_CODE=" ++ pyStrip job_code ++
        ", RUN_ID=" ++ toString w.seqNext ++
        ", BATCH_TS=" ++ isoformat "T" (replaceMicrosecondZero w.nowDT)) := by
  have hall := execSteps_all_success w.driver (pyStrip job_code) w.seqNext
      (isoformat " " (replaceMicrosecondZero w.nowDT))
      (_fetch_steps w.master (pyStrip job_code)) [] 0 h4 (by simp)
  have heq := run_with_steps_eq w conn job_code cid h1 h2 h3
  rw [heq]
  refine ⟨?_, ?_, ?_⟩
  · simpa using hall.2.1
  · exact hall.2.2
  · simp only [hall.1]

/-- A recorded substituted-SQL event of one step's SQL phase carries that
step's number and the step's logic with `$BATCH_TS` textually replaced by the
quoted literal. -/
theorem stepSql_mem_stepSqlEvents (d : Driver) (lit : String) (s : StepRow)
    (n : Int) (q : String) (h : Event.stepSql n q ∈ (stepSqlEvents d lit s).1) :
    n = s.step_number ∧ ∃ t, s.etl_logic = some t ∧ pyStrip t ≠ "" ∧
      q = pyReplace t "$BATCH_TS" ("\x27" ++ lit ++ "\x27") := by
  unfold stepSqlEvents at h
  cases hl : s.etl_logic with
  | none => simp [hl] at h
  | some t =>
      simp only [hl] at h
      by_cases hb : (pyStrip t == "") = true
      · simp [hb] at h
      · simp only [Bool.eq_false_iff.mpr hb, Bool.false_eq_true, if_false] at h
        rcases List.mem_cons.mp h with heq | h
        · have hinj := Event.stepSql.inj heq
          refine ⟨hinj.1, t, rfl, ?_, hinj.2⟩
          intro he
          exact hb (by simp [he])
        · rcases execute_sql_block_shape d _ _ h with ⟨q', hq'⟩ | ⟨u, hu⟩
          · exact Event.noConfusion hq'
          · exact Event.noConfusion hu

/-- Every substituted-SQL event of the loop belongs to some step of the
list. -/
theorem execSteps_stepSql (d : Driver) (jc : String) (rid : Nat) (lit : String)
    (l : List StepRow) (audit : List AuditRecord) (c : Nat) (n : Int) (q : String)
    (h : Event.stepSql n q ∈ (execSteps d jc rid lit l audit c).events) :
    ∃ s ∈ l, Event.stepSql n q ∈ (stepSqlEvents d lit s).1 := by
  induction l generalizing audit c with
  | nil => simp [execSteps] at h
  | cons s rest ih =>
      cases hse : (stepSqlEvents d lit s).2 with
      | none =>
          simp only [execSteps, hse] at h
          rcases List.mem_cons.mp h with heq | h
          · exact Event.noConfusion heq
          · rcases List.mem_append.mp h with h | h
            · exact ⟨s, List.mem_cons_self s rest, h⟩
            · rcases List.mem_cons.mp h with heq | h
              · exact Event.noConfusion heq
              · obtain ⟨t, ht, hmem⟩ := ih _ (c + 2) h
                exact ⟨t, List.mem_cons_of_mem s ht, hmem⟩
      | some e =>
          simp only [execSteps, hse] at h
          rcases List.mem_cons.mp h with heq | h
          · exact Event.noConfusion heq
          · rcases List.mem_append.mp h with h | h
            · exact ⟨s, List.mem_cons_self s rest, h⟩
            · simp only [List.mem_singleton] at h
              exact Event.noConfusion h

/-- C4: the batch timestamp literal is generated once per run before any
step executes — a single-quoted, space-separated, second-precision UTC
literal — and each executed step's SQL is its logic with every `$BATCH_TS`
occurrence textually replaced by that same quoted literal. -/
theorem C4_batch_ts_substitution (w : World) (conn : AirflowConn) (job_code cid : String) :
    isoformat " " (replaceMicrosecondZero w.nowDT) =
      padNum 4 w.nowDT.year ++ "-" ++ padNum 2 w.nowDT.month ++ "-" ++
      padNum 2 w.nowDT.day ++ " " ++ padNum 2 w.nowDT.hour ++ ":" ++
      padNum 2 w.nowDT.minute ++ ":" ++ padNum 2 w.nowDT.second ++ "+00:00" ∧
    (∀ n q, Event.stepSql n q ∈ (run_etl_job w conn job_code cid).events →
      ∃ s ∈ _fetch_steps w.master (pyStrip job_code), n = s.step_number ∧
        ∃ t, s.etl_logic = some t ∧ pyStrip t ≠ "" ∧
          q = pyReplace t "$BATCH_TS"
            ("\x27" ++ isoformat " " (replaceMicrosecondZero w.nowDT) ++ "\x27")) := by
  constructor
  · simp [isoformat, replaceMicrosecondZero]
  · intro n q hq
    by_cases h1 : pyStrip job_code = ""
    · rw [run_empty_job_eq w conn job_code cid h1] at hq
      simp at hq
    · by_cases h2 : truthyOpt (pyOrOpt conn.extra_account conn.host) = true
      · by_cases h3 : masterRows w.master (pyStrip job_code) = []
        · rw [run_unknown_job_eq w conn job_code cid h1 h2 h3] at hq
          simp at hq
        · rw [run_with_steps_eq w conn job_code cid h1 h2 h3] at hq
          simp only [List.mem_cons, List.mem_append, List.not_mem_nil, or_false] at hq
          rcases hq with hq | (hq | hq | hq | hq) | hq | hq
          · exact Event.noConfusion hq
          · exact Event.noConfusion hq
          · exact Event.noConfusion hq
          · exact Event.noConfusion hq
          · obtain ⟨s, hs, hmem⟩ := execSteps_stepSql _ _ _ _ _ _ _ _ _ hq
            obtain ⟨hn, t, ht, htb, hsub⟩ := stepSql_mem_stepSqlEvents _ _ _ _ _ hmem
            exact ⟨s, hs, hn, t, ht, htb, hsub⟩
          · exact Event.noConfusion hq
          · exact Event.noConfusion hq
      · rw [run_config_error_eq w conn job_code cid h1 (Bool.eq_false_iff.mpr h2)] at hq
        simp at hq

theorem insertStep_length (x : StepRow) (l : List StepRow) :
    (insertStep x l).length = l.length + 1 := by
  induction l with
  | nil => rfl
  | cons y ys ih =>
      by_cases h : decide (x.step_number ≤ y.step_number) = true <;>
        simp [insertStep, h, ih]

theorem orderByStepNumber_length (l : List StepRow) :
    (orderByStepNumber l).length = l.length := by
  induction l with
  | nil => rfl
  | cons x xs ih => simp [orderByStepNumber, insertStep_length, ih]

/-- Rows of a successful prefix all come from `successRecord`. -/
theorem successRecords_mem (rid : Nat) (l : List StepRow) (c : Nat) :
    ∀ a ∈ successRecords rid l c, ∃ s ∈ l, ∃ k, a = successRecord rid s k := by
  induction l generalizing c with
  | nil => simp [successRecords]
  | cons s rest ih =>
      intro a ha
      rcases List.mem_cons.mp ha with rfl | ha
      · exact ⟨s, List.mem_cons_self s rest, c, rfl⟩
      · obtain ⟨t, ht, k, hk⟩ := ih (c + 2) a ha
        exact ⟨t, List.mem_cons_of_mem s ht, k, hk⟩

/-- The (step number, status) projection of a successful prefix's rows. -/
theorem successRecords_map_pair (rid : Nat) (l : List StepRow) (c : Nat) :
    (successRecords rid l c).map (fun a => (a.step_number, a.load_status)) =
      l.map (fun s => (s.step_number, "SUCCESS")) := by
  induction l generalizing c with
  | nil => rfl
  | cons s rest ih =>
      simp [successRecords, successRecord, _audit_insert_started, ih]

/-- C3: when step k fails after a successful prefix, the audit trail holds
exactly one row per attempted step with statuses SUCCESS,...,SUCCESS,FAILED,
the FAILED row carries the error text, no row exists for any later step, and
the raised job-level `RuntimeError` embeds the job code, run id, failing step
number, step description and the underlying error text. -/
theorem C3_step_failure (w : World) (conn : AirflowConn) (job_code cid : String)
    (pre : List StepRow) (sk : StepRow) (e : String) (post : List StepRow)
    (h1 : pyStrip job_code ≠ "")
    (h2 : truthyOpt (pyOrOpt conn.extra_account conn.host) = true)
    (hsplit : _fetch_steps w.master (pyStrip job_code) = pre ++ sk :: post)
    (hnodup : ((pre ++ sk :: post).map (fun s => s.step_number)).Nodup)
    (hpre : ∀ s ∈ pre,
      (stepSqlEvents w.driver (isoformat " " (replaceMicrosecondZero w.nowDT)) s).2 = none)
    (hsk : (stepSqlEvents w.driver (isoformat " " (replaceMicrosecondZero w.nowDT)) sk).2 =
      some e) :
    (run_etl_job w conn job_code cid).audit.map (fun a => (a.step_number, a.load_status)) =
      pre.map (fun s => (s.step_number, "SUCCESS")) ++ [(sk.step_number, "FAILED")] ∧
    (∀ a ∈ (run_etl_job w conn job_code cid).audit,
      a.load_status = "FAILED" → a.error_message = some e) ∧
    (∀ s ∈ post, ∀ a ∈ (run_etl_job w conn job_code cid).audit,
      a.step_number ≠ s.step_number) ∧
    (run_etl_job w conn job_code cid).result = Except.error (PyErr.runtimeError
      (jobFailedMsg (pyStrip job_code) w.seqNext sk e)) ∧
    jobFailedMsg (pyStrip job_code) w.seqNext sk e =
      "JOB FAILED | JOB=" ++ pyStrip job_code ++ " | RUN_ID=" ++ toString w.seqNext ++
      " | STEP=" ++ toString sk.step_number ++ " | DESC=" ++ sk.step_desc ++
      " | ERROR=" ++ e := by
  have h3 : masterRows w.master (pyStrip job_code) ≠ [] := by
    intro hmt
    have : (_fetch_steps w.master (pyStrip job_code)).length = 0 := by
      simp [_fetch_steps, hmt, orderByStepNumber]
    rw [hsplit] at this
    simp at this
  have hkeys : (pre ++ sk :: post).Pairwise
      (fun s t => ¬(s.job_code = t.job_code ∧ s.step_number = t.step_number)) := by
    have hp := (List.pairwise_map.mp hnodup)
    exact hp.imp (fun hne hkey => hne hkey.2)
  have hexact := execSteps_fail_exact w.driver (pyStrip job_code) w.seqNext
      (isoformat " " (replaceMicrosecondZero w.nowDT)) pre sk e post [] 0 hpre hsk
      (by simp) hkeys
  have heq := run_with_steps_eq w conn job_code cid h1 h2 h3
  rw [hsplit] at heq
  rw [heq]
  have hdisjpost : ∀ m ∈ (pre ++ [sk]).map (fun s => s.step_number),
      ∀ s ∈ post, m ≠ s.step_number := by
    have hn : ((pre ++ [sk]).map (fun s => s.step_number) ++
        post.map (fun s => s.step_number)).Nodup := by
      simpa using hnodup
    intro m hm s hs
    exact fun hms => (List.disjoint_of_nodup_append hn) hm
      (hms ▸ List.mem_map_of_mem (fun s => s.step_number) hs)
  refine ⟨?_, ?_, ?_, ?_, rfl⟩
  · simp only [hexact, List.nil_append, List.map_append]
    rw [successRecords_map_pair]
    simp [failedRecord, _audit_insert_started]
  · intro a ha hf
    simp only [hexact, List.nil_append] at ha
    rcases List.mem_append.mp ha with ha | ha
    · obtain ⟨s, _, k, rfl⟩ := successRecords_mem _ _ _ a ha
      simp [successRecord, _audit_insert_started] at hf
    · simp only [List.mem_singleton] at ha
      subst ha
      rfl
  · intro s hs a ha
    simp only [hexact, List.nil_append] at ha
    rcases List.mem_append.mp ha with ha | ha
    · obtain ⟨t, ht, k, rfl⟩ := successRecords_mem _ _ _ a ha
      have hm : t.step_number ∈ (pre ++ [sk]).map (fun s => s.step_number) :=
        List.mem_map_of_mem _ (by simp [ht])
      simpa [successRecord, _audit_insert_started] using hdisjpost _ hm s hs
    · simp only [List.mem_singleton] at ha
      subst ha
      have hm : sk.step_number ∈ (pre ++ [sk]).map (fun s => s.step_number) :=
        List.mem_map_of_mem _ (by simp)
      simpa [failedRecord, _audit_insert_started] using hdisjpost _ hm s hs
  · simp only [hexact]

/-- A step's SQL phase emits no audit-insert event. -/
theorem count_auditInsert_stepSqlEvents (d : Driver) (lit : String) (t : StepRow)
    (r : Nat) (m : Int) :
    (stepSqlEvents d lit t).1.count (Event.auditInsert r m) = 0 := by
  rw [List.count_eq_zero]
  intro hmem
  rcases stepSqlEvents_shape d lit t _ hmem with ⟨n, q, h⟩ | ⟨q, h⟩ | ⟨q, h⟩ <;>
    exact Event.noConfusion h

/-- One loop iteration emits exactly one audit-insert event, for its own
step number. -/
theorem count_stepEventsOf (d : Driver) (rid : Nat) (lit : String) (t : StepRow)
    (st : String) (m : Int) :
    (stepEventsOf d rid lit t st).count (Event.auditInsert rid m) =
      if t.step_number = m then 1 else 0 := by
  unfold stepEventsOf
  by_cases h : t.step_number = m <;>
    simp [List.count_cons, List.count_append, List.count_eq_zero,
      count_auditInsert_stepSqlEvents, h]

/-- Audit-insert events of a successful run of steps count the occurrences
of the step number. -/
theorem count_successEvents (d : Driver) (rid : Nat) (lit : String)
    (l : List StepRow) (m : Int) :
    (successEvents d rid lit l).count (Event.auditInsert rid m) =
      (l.map (fun s => s.step_number)).count m := by
  induction l with
  | nil => rfl
  | cons s rest ih =>
      by_cases h : s.step_number = m <;>
        simp [successEvents, List.count_append, count_stepEventsOf, List.count_cons,
          ih, h, Nat.add_comm]

/-- The event trace of a successful run of steps splits around any of its
steps' blocks. -/
theorem successEvents_split (d : Driver) (rid : Nat) (lit : String)
    (l : List StepRow) (s : StepRow) (hs : s ∈ l) :
    ∃ A B, successEvents d rid lit l =
      A ++ (stepEventsOf d rid lit s "SUCCESS" ++ B) := by
  induction l with
  | nil => simp at hs
  | cons t rest ih =>
      rcases List.mem_cons.mp hs with rfl | hs
      · exact ⟨[], successEvents d rid lit rest, by simp [successEvents]⟩
      · obtain ⟨A, B, hAB⟩ := ih hs
        exact ⟨stepEventsOf d rid lit t "SUCCESS" ++ A, B,
          by simp [successEvents, hAB, List.append_assoc]⟩

/-- Rows of a successful prefix matching a `(run id, step number)` pair count
the occurrences of the step number. -/
theorem successRecords_filter_count (rid : Nat) (l : List StepRow) (c : Nat) (n : Int) :
    ((successRecords rid l c).filter
      (fun a => a.run_id == rid && a.step_number == n)).length =
      (l.map (fun s => s.step_number)).count n := by
  induction l generalizing c with
  | nil => rfl
  | cons s rest ih =>
      by_cases h : s.step_number = n <;>
        simp [successRecords, List.filter_cons, successRecord, _audit_insert_started,
          List.count_cons, ih, h]

/-- Step keys are pairwise distinct whenever the step numbers are. -/
theorem keys_of_nodup (l : List StepRow)
    (hnodup : (l.map (fun s => s.step_number)).Nodup) :
    l.Pairwise (fun s t => ¬(s.job_code = t.job_code ∧ s.step_number = t.step_number)) :=
  (List.pairwise_map.mp hnodup).imp (fun hne hkey => hne hkey.2)

/-- Every row the loop leaves behind belongs to this run and is terminal:
start and end dates set, status SUCCESS or FAILED. -/
theorem execSteps_terminal (d : Driver) (jc : String) (rid : Nat) (lit : String)
    (l : List StepRow) (hnodup : (l.map (fun s => s.step_number)).Nodup) :
    ∀ a ∈ (execSteps d jc rid lit l [] 0).audit,
      a.run_id = rid ∧ a.run_start_date ≠ none ∧ a.run_end_date ≠ none ∧
      (a.load_status = "SUCCESS" ∨ a.load_status = "FAILED") := by
  intro a ha
  rcases loop_split_cases d lit l with hall | ⟨pre, sk, e, post, hsplit, hpre, hsk⟩
  · rw [execSteps_success_exact d jc rid lit l [] 0 hall (by simp) (keys_of_nodup l hnodup)]
      at ha
    simp only [List.nil_append] at ha
    obtain ⟨s, _, k, rfl⟩ := successRecords_mem _ _ _ a ha
    simp [successRecord, _audit_insert_started]
  · subst hsplit
    rw [execSteps_fail_exact d jc rid lit pre sk e post [] 0 hpre hsk (by simp)
      (keys_of_nodup _ hnodup)] at ha
    simp only [List.nil_append] at ha
    rcases List.mem_append.mp ha with ha | ha
    · obtain ⟨s, _, k, rfl⟩ := successRecords_mem _ _ _ a ha
      simp [successRecord, _audit_insert_started]
    · simp only [List.mem_singleton] at ha
      subst ha
      simp [failedRecord, _audit_insert_started]

/-- For every step the loop reached (witnessed by its audit-insert event),
under distinct step numbers: the insert event is unique, exactly one audit
row matches the `(run id, step number)` pair, and the trace decomposes as
that insert, the step's SQL events, then its terminal update. -/
theorem execSteps_protocol (d : Driver) (jc : String) (rid : Nat) (lit : String)
    (l : List StepRow) (hnodup : (l.map (fun s => s.step_number)).Nodup)
    (s : StepRow) (hs : s ∈ l)
    (hmem : Event.auditInsert rid s.step_number ∈ (execSteps d jc rid lit l [] 0).events) :
    (execSteps d jc rid lit l [] 0).events.count
      (Event.auditInsert rid s.step_number) = 1 ∧
    ((execSteps d jc rid lit l [] 0).audit.filter
      (fun a => a.run_id == rid && a.step_number == s.step_number)).length = 1 ∧
    ∃ A st B, (execSteps d jc rid lit l [] 0).events =
      A ++ Event.auditInsert rid s.step_number ::
        ((stepSqlEvents d lit s).1 ++ Event.auditUpdate rid s.step_number st :: B) ∧
      (st = "SUCCESS" ∨ st = "FAILED") := by
  rcases loop_split_cases d lit l with hall | ⟨pre, sk, e, post, hsplit, hpre, hsk⟩
  · rw [execSteps_success_exact d jc rid lit l [] 0 hall (by simp) (keys_of_nodup l hnodup)]
    refine ⟨?_, ?_, ?_⟩
    · rw [count_successEvents]
      exact List.count_eq_one_of_mem hnodup (List.mem_map_of_mem _ hs)
    · simp only [List.nil_append]
      rw [successRecords_filter_count]
      exact List.count_eq_one_of_mem hnodup (List.mem_map_of_mem _ hs)
    · obtain ⟨A, B, hAB⟩ := successEvents_split d rid lit l s hs
      exact ⟨A, "SUCCESS", B, by simp [hAB, stepEventsOf], Or.inl rfl⟩
  · subst hsplit
    have hex := execSteps_fail_exact d jc rid lit pre sk e post [] 0 hpre hsk (by simp)
      (keys_of_nodup _ hnodup)
    have hnm : ((pre.map (fun s => s.step_number)) ++
        sk.step_number :: post.map (fun s => s.step_number)).Nodup := by
      simpa using hnodup
    have hinj := List.inj_on_of_nodup_map hnodup
    rw [hex] at hmem
    simp only [List.nil_append] at hmem
    have hcase : s ∈ pre ∨ s = sk := by
      rcases List.mem_append.mp hmem with hmem | hmem
      · have hcnt : 0 < (successEvents d rid lit pre).count
            (Event.auditInsert rid s.step_number) := List.count_pos_iff.mpr hmem
        rw [count_successEvents] at hcnt
        have hn : s.step_number ∈ pre.map (fun s => s.step_number) :=
          List.count_pos_iff.mp hcnt
        obtain ⟨t, ht, htn⟩ := List.mem_map.mp hn
        have : t = s := hinj (by simp [ht]) hs htn
        exact Or.inl (this ▸ ht)
      · unfold stepEventsOf at hmem
        rcases List.mem_cons.mp hmem with heq | hmem
        · have := (Event.auditInsert.inj heq).2
          exact Or.inr (hinj hs (by simp) this)
        · rcases List.mem_append.mp hmem with hmem | hmem
          · rcases stepSqlEvents_shape d lit sk _ hmem with ⟨_, _, h⟩ | ⟨_, h⟩ | ⟨_, h⟩ <;>
              exact Event.noConfusion h
          · simp only [List.mem_singleton] at hmem
            exact Event.noConfusion hmem
    have hdisj := List.disjoint_of_nodup_append hnm
    rw [hex]
    rcases hcase with hsp | hss
    · have hne : sk.step_number ≠ s.step_number := by
        intro hcontra
        exact hdisj (hcontra ▸ List.mem_map_of_mem _ hsp) (List.mem_cons_self _ _)
      refine ⟨?_, ?_, ?_⟩
      · rw [List.count_append, count_successEvents, count_stepEventsOf,
          if_neg hne, List.count_eq_one_of_mem hnm.of_append_left
            (List.mem_map_of_mem _ hsp)]
      · simp only [List.nil_append, List.filter_append, List.length_append]
        rw [successRecords_filter_count, List.count_eq_one_of_mem hnm.of_append_left
          (List.mem_map_of_mem _ hsp)]
        simp [failedRecord, _audit_insert_started, hne]
      · obtain ⟨A, B, hAB⟩ := successEvents_split d rid lit pre s hsp
        refine ⟨A, "SUCCESS", B ++ stepEventsOf d rid lit sk "FAILED",
          ?_, Or.inl rfl⟩
        simp [hAB, stepEventsOf, List.append_assoc]
    · subst hss
      have hnin : s.step_number ∉ pre.map (fun t => t.step_number) := by
        intro hcontra
        exact hdisj hcontra (List.mem_cons_self _ _)
      refine ⟨?_, ?_, ?_⟩
      · rw [List.count_append, count_successEvents, count_stepEventsOf, if_pos rfl,
          List.count_eq_zero.mpr hnin]
      · simp only [List.nil_append, List.filter_append, List.length_append]
        rw [successRecords_filter_count, List.count_eq_zero.mpr hnin]
        simp [failedRecord, _audit_insert_started]
      · exact ⟨successEvents d rid lit pre, "FAILED", [],
          by simp [stepEventsOf], Or.inr rfl⟩

/-- C5: the STARTED row is inserted with start date set and end date and
error null; for every step the run reached, that row is inserted exactly once
(never re-inserted), before the step's SQL events, and is updated in place to
a terminal status afterwards: at the end exactly one row matches the
`(run id, step number)` pair and every row of the run is terminal with an end
date. -/
theorem C5_audit_protocol (w : World) (conn : AirflowConn) (job_code cid : String)
    (hnodup : ((_fetch_steps w.master (pyStrip job_code)).map
      (fun s => s.step_number)).Nodup) :
    (∀ rid step c,
      (_audit_insert_started rid step c).load_status = "STARTED" ∧
      (_audit_insert_started rid step c).run_start_date = some c ∧
      (_audit_insert_started rid step c).run_end_date = none ∧
      (_audit_insert_started rid step c).error_message = none) ∧
    (∀ a ∈ (run_etl_job w conn job_code cid).audit,
      a.run_id = w.seqNext ∧ a.run_start_date ≠ none ∧ a.run_end_date ≠ none ∧
      (a.load_status = "SUCCESS" ∨ a.load_status = "FAILED")) ∧
    (∀ s ∈ _fetch_steps w.master (pyStrip job_code),
      Event.auditInsert w.seqNext s.step_number ∈
        (run_etl_job w conn job_code cid).events →
      (run_etl_job w conn job_code cid).events.count
        (Event.auditInsert w.seqNext s.step_number) = 1 ∧
      ((run_etl_job w conn job_code cid).audit.filter
        (fun a => a.run_id == w.seqNext && a.step_number == s.step_number)).length = 1 ∧
      ∃ e1 st e2, (run_etl_job w conn job_code cid).events =
        e1 ++ Event.auditInsert w.seqNext s.step_number ::
          ((stepSqlEvents w.driver (isoformat " " (replaceMicrosecondZero w.nowDT)) s).1 ++
           Event.auditUpdate w.seqNext s.step_number st :: e2) ∧
        (st = "SUCCESS" ∨ st = "FAILED")) := by
  refine ⟨fun rid step c => ⟨rfl, rfl, rfl, rfl⟩, ?_⟩
  by_cases h1 : pyStrip job_code = ""
  · rw [run_empty_job_eq w conn job_code cid h1]
    exact ⟨by simp, fun s hs hmem => absurd hmem (by simp)⟩
  by_cases h2 : truthyOpt (pyOrOpt conn.extra_account conn.host) = true
  swap
  · rw [run_config_error_eq w conn job_code cid h1 (Bool.eq_false_iff.mpr h2)]
    exact ⟨by simp, fun s hs hmem => absurd hmem (by simp)⟩
  by_cases h3 : masterRows w.master (pyStrip job_code) = []
  · rw [run_unknown_job_eq w conn job_code cid h1 h2 h3]
    exact ⟨by simp, fun s hs hmem => absurd hmem (by simp)⟩
  rw [run_with_steps_eq w conn job_code cid h1 h2 h3]
  constructor
  · exact execSteps_terminal w.driver (pyStrip job_code) w.seqNext
      (isoformat " " (replaceMicrosecondZero w.nowDT))
      (_fetch_steps w.master (pyStrip job_code)) hnodup
  · intro s hs hmem
    have hmem2 : Event.auditInsert w.seqNext s.step_number ∈
        (execSteps w.driver (pyStrip job_code) w.seqNext
          (isoformat " " (replaceMicrosecondZero w.nowDT))
          (_fetch_steps w.master (pyStrip job_code)) [] 0).events := by
      simp only [List.mem_cons, List.mem_append, List.not_mem_nil, or_false] at hmem
      rcases hmem with hq | (hq | hq | hq | hq) | hq | hq
      · exact Event.noConfusion hq
      · exact Event.noConfusion hq
      · exact Event.noConfusion hq
      · exact Event.noConfusion hq
      · exact hq
      · exact Event.noConfusion hq
      · exact Event.noConfusion hq
    obtain ⟨hcount, hfilter, A, st, B, hdecomp, hst⟩ :=
      execSteps_protocol w.driver (pyStrip job_code) w.seqNext
        (isoformat " " (replaceMicrosecondZero w.nowDT))
        (_fetch_steps w.master (pyStrip job_code)) hnodup s hs hmem2
    refine ⟨?_, hfilter, ?_⟩
    · simp [List.count_cons, List.count_append, hcount]
    · refine ⟨Event.connect :: Event.countQuery (pyStrip job_code) ::
        Event.seqNextval :: Event.fetchQuery (pyStrip job_code) :: A, st,
        B ++ [Event.closeCursor, Event.closeConn], ?_, hst⟩
      simp [hdecomp, List.append_assoc]

/-- Witness for C1: a concrete two-step all-success run. -/
theorem C1_success_run_witness :
    (run_etl_job exWorld exConn " JOB_01 " "snowflake_adwbi").audit.map
      (fun a => a.step_number) = [1, 2] ∧
    (run_etl_job exWorld exConn " JOB_01 " "snowflake_adwbi").result =
      Except.ok "SUCCESS: JOB_CODE=JOB_01, RUN_ID=7, BATCH_TS=2026-01-02T03:04:05+00:00" := by
  have h := C1_success_run exWorld exConn " JOB_01 " "snowflake_adwbi"
    (by decide) (by decide) (by decide) (by decide)
  exact ⟨h.1.trans (by decide), by rw [h.2.2]; rfl⟩

/-- Witness for C2: a concrete run on a job code with no master rows. -/
theorem C2_unknown_job_witness :
    (run_etl_job exWorld exConn "NOPE" "c").result =
      Except.error (PyErr.runtimeError "No steps found for JOB_CODE=NOPE") ∧
    Event.seqNextval ∉ (run_etl_job exWorld exConn "NOPE" "c").events ∧
    (run_etl_job exWorld exConn "NOPE" "c").audit = [] := by
  have h := C2_unknown_job exWorld exConn "NOPE" "c" (by decide) (by decide) (by decide)
  exact ⟨by rw [h.1]; rfl, h.2.1, by rw [h.1]⟩

/-- Witness for C3: a concrete run whose second of three steps fails. -/
theorem C3_step_failure_witness :
    (run_etl_job exWorldFail exConn "JOB_01" "c").audit.map
      (fun a => (a.step_number, a.load_status)) = [(1, "SUCCESS"), (2, "FAILED")] ∧
    (run_etl_job exWorldFail exConn "JOB_01" "c").result =
      Except.error (PyErr.runtimeError
        "JOB FAILED | JOB=JOB_01 | RUN_ID=9 | STEP=2 | DESC=D2 | ERROR=boom") := by
  have h := C3_step_failure exWorldFail exConn "JOB_01" "c"
    [exStep 1 (some "OK1")] (exStep 2 (some "BAD")) "boom" [exStep 3 (some "OK3")]
    (by decide) (by decide) (by decide) (by decide) (by decide) (by decide)
  exact ⟨h.1.trans (by decide), by rw [h.2.2.2.1]; rfl⟩

/-- Witness for C4: the concrete substituted SQL of the sample run uses the
single batch-timestamp literal. -/
theorem C4_batch_ts_substitution_witness :
    isoformat " " (replaceMicrosecondZero exDT) = "2026-01-02 03:04:05+00:00" ∧
    ∃ s ∈ _fetch_steps exWorld.master (pyStrip " JOB_01 "), (1 : Int) = s.step_number ∧
      ∃ t, s.etl_logic = some t ∧ pyStrip t ≠ "" ∧
        "INSERT INTO T SELECT * FROM S WHERE ts = \x272026-01-02 03:04:05+00:00\x27" =
          pyReplace t "$BATCH_TS"
            ("\x27" ++ isoformat " " (replaceMicrosecondZero exDT) ++ "\x27") := by
  have h := C4_batch_ts_substitution exWorld exConn " JOB_01 " "c"
  exact ⟨h.1.trans (by decide),
    h.2 1 "INSERT INTO T SELECT * FROM S WHERE ts = \x272026-01-02 03:04:05+00:00\x27"
      (by decide)⟩

/-- Witness for C5: in the sample run, step 1's audit row is unique for its
`(run id, step number)` pair and its insert event occurs exactly once. -/
theorem C5_audit_protocol_witness :
    (run_etl_job exWorld exConn " JOB_01 " "c").events.count (Event.auditInsert 7 1) = 1 ∧
    ((run_etl_job exWorld exConn " JOB_01 " "c").audit.filter
      (fun a => a.run_id == 7 && a.step_number == 1)).length = 1 := by
  have h := C5_audit_protocol exWorld exConn " JOB_01 " "c" (by decide)
  have h3 := h.2.2
    (exStep 1 (some "INSERT INTO T SELECT * FROM S WHERE ts = $BATCH_TS"))
    (by decide) (by decide)
  exact ⟨h3.1, h3.2.1⟩

/-- Witness for C6: the sample run's trace starts with the connect and ends
with the cursor and connection closes. -/
theorem C6_resources_closed_witness :
    ∃ l, (run_etl_job exWorldFail exConn "JOB_01" "c").events =
      Event.connect :: (l ++ [Event.closeCursor, Event.closeConn]) :=
  C6_resources_closed exWorldFail exConn "JOB_01" "c" (by decide) (by decide)

/-- Witness for C7: whitespace-only SQL is a no-op. -/
theorem C7_blank_sql_noop_witness :
    _execute_sql_block exDriver "   " = ([], none) :=
  C7_blank_sql_noop exDriver "   " (by decide)

/-- Witness for C8: in `A; BAD; C` the second statement's error surfaces. -/
theorem C8_native_then_fallback_witness :
    (_execute_sql_block exDriver "A; BAD; C").2 = some "boom" := by
  have h := C8_native_then_fallback exDriver "A; BAD; C" (by decide)
  exact h.2.2 ["A"] "BAD" ["C"] "boom" (by decide) (by decide) (by decide)

/-- Witness for C9: a connection record with an empty Host and no Extra
account yields the configuration error with an empty trace. -/
theorem C9_missing_account_witness :
    run_etl_job exWorld exConnNoAcct "JOB_01" "snowflake_adwbi" =
      { result := Except.error (PyErr.valueError
          ("Airflow connection \x27" ++ "snowflake_adwbi" ++
           "\x27 is missing Snowflake \x27account\x27. " ++
           "Set it in Extra as \x7b\"account\":\"...\"\x7d or in the Host field.")),
        audit := [], events := [] } :=
  C9_missing_account exWorld exConnNoAcct "JOB_01" "snowflake_adwbi"
    (by decide) (by decide) (by decide)

/-- Witness for C10: a whitespace-only job code is rejected before any
database activity. -/
theorem C10_job_code_validation_witness :
    run_etl_job exWorld exConn "   " "c" =
      { result := Except.error (PyErr.valueError "job_code is required"),
        audit := [], events := [] } :=
  (C10_job_code_validation exWorld exConn "   " "c").1 (by decide)

end Etl
